import Mathlib

/-!
Verification of the Mattermost integration migration tool
(`mattermost_exporter.py`): a shallow embedding of the import
reconciliation engine (incoming webhooks, outgoing webhooks, bots), the
envelope validation of `import_all`, and the export envelope of
`export_all`, together with theorems about collision renaming, field
stripping, provenance annotation, dry-run behaviour, success counting,
failure isolation, replay renaming and round-trips.

Records are modelled as association lists from field names to scalar
JSON values (the tool only inspects scalar fields); the HTTP transport is
modelled by boolean oracles saying which GET/POST calls succeed, and the
remote server by the three collections a GET returns, with a successful
POST appending its payload.
-/

set_option autoImplicit false

/-- Scalar JSON value, as stored in a webhook or bot record. -/
inductive JVal where
  | str : String → JVal
  | num : Int → JVal
  | bool : Bool → JVal
  | null : JVal
  deriving Repr, DecidableEq

/-- Python `str()` of a scalar value, as used by f-string interpolation. -/
def JVal.toStr : JVal → String
  | .str s => s
  | .num n => toString n
  | .bool true => "True"
  | .bool false => "False"
  | .null => "None"

/-- Python truthiness of a scalar value (`if existing_desc:`). -/
def JVal.truthy : JVal → Bool
  | .str s => !(s == "")
  | .num n => !(n == 0)
  | .bool b => b
  | .null => false

/-- A record (Python dict) is an ordered association list of fields. -/
abbrev Dict := List (String × JVal)

/-- Python `d.get(k)` via `None`-defaulting: first entry with key `k`. -/
def dget : Dict → String → Option JVal
  | [], _ => none
  | p :: rest, k => if p.1 == k then some p.2 else dget rest k

/-- Python `d[k] = v`: replace the entry for `k` in place, else append. -/
def dset : Dict → String → JVal → Dict
  | [], k, v => [(k, v)]
  | p :: rest, k, v => if p.1 == k then (k, v) :: rest else p :: dset rest k v

/-- The dict comprehension dropping the listed keys:
`\x7bk: v for k, v in d.items() if k not in ks\x7d`. -/
def stripKeys (d : Dict) (ks : List String) : Dict :=
  d.filter (fun p => !(ks.contains p.1))

/-- Keys stripped from an incoming webhook before re-creation
(`mattermost_exporter.py` line 211). -/
def incomingStrip : List String := ["id", "create_at", "update_at", "delete_at"]

/-- Keys stripped from an outgoing webhook before re-creation
(`mattermost_exporter.py` line 275). -/
def outgoingStrip : List String := ["id", "create_at", "update_at", "delete_at", "token"]

/-- Keys stripped from a bot before re-creation
(`mattermost_exporter.py` line 329). -/
def botStrip : List String := ["user_id", "create_at", "update_at", "delete_at", "owner_id"]

/-- `original_name = webhook.get('display_name', 'Unnamed')`. -/
def webhookOriginalName (hook : Dict) : JVal :=
  (dget hook "display_name").getD (.str "Unnamed")

/-- The duplicate check of the import loop: outside dry-run, scan the
pre-fetched remote webhooks for one whose `display_name` (Python default
`None`) equals the snapshot record's original name. -/
def webhookDup (idx : List Dict) (dryRun : Bool) (hook : Dict) : Bool :=
  !dryRun && idx.any (fun e => decide ((dget e "display_name").getD .null = webhookOriginalName hook))

/-- The provenance note `[Imported on <timestamp>]`. -/
def importNote (now : String) : String := "[Imported on " ++ now ++ "]"

/-- Append the provenance note to the payload's description: after an
existing truthy description separated by a blank line, else as the whole
description. -/
def annotateDescription (d : Dict) (now : String) : Dict :=
  let existingDesc := (dget d "description").getD (.str "")
  if existingDesc.truthy then
    dset d "description" (.str (existingDesc.toStr ++ "\n\n" ++ importNote now))
  else
    dset d "description" (.str (importNote now))

/-- The creation payload for one webhook record: strip server-generated
fields, rename the display name on a duplicate, annotate the description. -/
def webhookPayload (strip : List String) (idx : List Dict) (dryRun : Bool)
    (now : String) (hook : Dict) : Dict :=
  let data0 := stripKeys hook strip
  let data1 :=
    if webhookDup idx dryRun hook then
      dset data0 "display_name" (.str ((webhookOriginalName hook).toStr ++ " (imported)"))
    else data0
  annotateDescription data1 now

/-- Per-item outcome: the name printed (post-rename), whether the
creation succeeded, and whether the item was renamed. -/
structure ItemResult where
  name : JVal
  succeeded : Bool
  renamed : Bool
  deriving Repr, DecidableEq

/-- The per-item outcome of the webhook import loop; `okPost` says
whether the POST for this item succeeds (irrelevant in dry-run, where no
POST happens and the item always counts as imported). -/
def webhookItemResult (idx : List Dict) (dryRun : Bool) (okPost : Bool) (hook : Dict) :
    ItemResult :=
  { name :=
      if webhookDup idx dryRun hook then
        .str ((webhookOriginalName hook).toStr ++ " (imported)")
      else webhookOriginalName hook
    succeeded := dryRun || okPost
    renamed := webhookDup idx dryRun hook }

/-- The creation payload for one bot record: strip server-generated
fields; bots get no duplicate check and no description annotation. -/
def botPayload (bot : Dict) : Dict := stripKeys bot botStrip

/-- The per-item outcome of the bot import loop. -/
def botItemResult (dryRun : Bool) (okPost : Bool) (bot : Dict) : ItemResult :=
  { name := (dget bot "username").getD (.str "Unnamed")
    succeeded := dryRun || okPost
    renamed := false }

/-- A network call made during import: the collision pre-fetch GET or a
creation POST with its payload. -/
inductive ApiCall where
  | get (endpoint : String)
  | post (endpoint : String) (payload : Dict)
  deriving Repr, DecidableEq

/-- Accumulated result of one kind's item loop: per-item results in
order, the success count, the payloads actually created on the server
(successful non-dry-run POSTs, in order), and the network calls made. -/
structure LoopOut where
  results : List ItemResult
  count : Nat
  created : List Dict
  calls : List ApiCall
  deriving Repr, DecidableEq

/-- The webhook item loop (`for webhook in webhooks:`), at running index
`i`; `postOk n` says whether the `n`-th POST raises no transport error. -/
def webhookLoop (ep : String) (strip : List String) (idx : List Dict)
    (postOk : Nat → Bool) (now : String) (dryRun : Bool) : Nat → List Dict → LoopOut
  | _, [] => ⟨[], 0, [], []⟩
  | i, hook :: rest =>
    let res := webhookItemResult idx dryRun (postOk i) hook
    let pay := webhookPayload strip idx dryRun now hook
    let outRest := webhookLoop ep strip idx postOk now dryRun (i + 1) rest
    ⟨res :: outRest.results,
     (if res.succeeded then 1 else 0) + outRest.count,
     (if !dryRun && postOk i then [pay] else []) ++ outRest.created,
     (if dryRun then [] else [ApiCall.post ep pay]) ++ outRest.calls⟩

/-- The bot item loop (`for bot in bots:`). -/
def botLoop (postOk : Nat → Bool) (dryRun : Bool) : Nat → List Dict → LoopOut
  | _, [] => ⟨[], 0, [], []⟩
  | i, bot :: rest =>
    let res := botItemResult dryRun (postOk i) bot
    let pay := botPayload bot
    let outRest := botLoop postOk dryRun (i + 1) rest
    ⟨res :: outRest.results,
     (if res.succeeded then 1 else 0) + outRest.count,
     (if !dryRun && postOk i then [pay] else []) ++ outRest.created,
     (if dryRun then [] else [ApiCall.post "bots" pay]) ++ outRest.calls⟩

/-- Outcome of one kind's import: item results, success count, the
remote collection after the run, and the network calls made. -/
structure KindOutcome where
  results : List ItemResult
  successCount : Nat
  remoteAfter : List Dict
  calls : List ApiCall
  deriving Repr, DecidableEq

/-- `import_incoming_webhooks`: return 0 on an empty list before any
call; otherwise pre-fetch the remote webhooks unless dry-run (a failed
fetch is tolerated and yields an empty collision index), then run the
item loop. `srv` is the remote incoming-webhook collection. -/
def import_incoming_webhooks (srv : List Dict) (fetchOk : Bool) (postOk : Nat → Bool)
    (now : String) (dryRun : Bool) (hooks : List Dict) : KindOutcome :=
  if hooks.isEmpty then ⟨[], 0, srv, []⟩
  else
    let idx := if dryRun then [] else if fetchOk then srv else []
    let lo := webhookLoop "hooks/incoming" incomingStrip idx postOk now dryRun 0 hooks
    ⟨lo.results, lo.count, srv ++ lo.created,
     (if dryRun then [] else [ApiCall.get "hooks/incoming"]) ++ lo.calls⟩

/-- `import_outgoing_webhooks`: same shape as incoming, with the
outgoing endpoint and `token` additionally stripped. -/
def import_outgoing_webhooks (srv : List Dict) (fetchOk : Bool) (postOk : Nat → Bool)
    (now : String) (dryRun : Bool) (hooks : List Dict) : KindOutcome :=
  if hooks.isEmpty then ⟨[], 0, srv, []⟩
  else
    let idx := if dryRun then [] else if fetchOk then srv else []
    let lo := webhookLoop "hooks/outgoing" outgoingStrip idx postOk now dryRun 0 hooks
    ⟨lo.results, lo.count, srv ++ lo.created,
     (if dryRun then [] else [ApiCall.get "hooks/outgoing"]) ++ lo.calls⟩

/-- `import_bots`: no pre-fetch and no collision step; return 0 on an
empty list, else run the item loop. -/
def import_bots (postOk : Nat → Bool) (dryRun : Bool) (bots srv : List Dict) : KindOutcome :=
  if bots.isEmpty then ⟨[], 0, srv, []⟩
  else
    let lo := botLoop postOk dryRun 0 bots
    ⟨lo.results, lo.count, srv ++ lo.created, lo.calls⟩

/-- The remote server's three collections, as returned by the GET
endpoints; a successful creation POST appends its payload. -/
structure Server where
  incoming : List Dict
  outgoing : List Dict
  bots : List Dict
  deriving Repr, DecidableEq

/-- Transport oracle: which pre-fetch GETs succeed and which creation
POSTs (by item index, per kind) raise no transport error. -/
structure Transport where
  inFetchOk : Bool
  outFetchOk : Bool
  inPostOk : Nat → Bool
  outPostOk : Nat → Bool
  botPostOk : Nat → Bool

/-- A transport on which every call succeeds. -/
def allOkTransport : Transport :=
  ⟨true, true, fun _ => true, fun _ => true, fun _ => true⟩

/-- A parsed import file: the three collections keyed by
`incoming_webhooks`, `outgoing_webhooks` and `bots`, each possibly
absent. -/
structure ImportFile where
  incoming? : Option (List Dict)
  outgoing? : Option (List Dict)
  bots? : Option (List Dict)
  deriving Repr, DecidableEq

/-- The structural validation of `import_all`: all three keys present. -/
def validEnvelope (f : ImportFile) : Bool :=
  f.incoming?.isSome && f.outgoing?.isSome && f.bots?.isSome

/-- Outcome of a whole import run: the three result sequences and
counts, the summed totals of the final report, the server afterwards,
and the full ordered call log. -/
structure ImportOutcome where
  incomingResults : List ItemResult
  outgoingResults : List ItemResult
  botResults : List ItemResult
  incomingCount : Nat
  outgoingCount : Nat
  botCount : Nat
  totalImported : Nat
  totalItems : Nat
  server : Server
  calls : List ApiCall
  deriving Repr, DecidableEq

/-- The body of `import_all` after validation: run the three kind
pipelines in the fixed order incoming, outgoing, bots, and sum successes
and totals for the final report. -/
def importAllRun (ins outs bs : List Dict) (srv : Server) (t : Transport)
    (now : String) (dryRun : Bool) : ImportOutcome :=
  let ki := import_incoming_webhooks srv.incoming t.inFetchOk t.inPostOk now dryRun ins
  let ko := import_outgoing_webhooks srv.outgoing t.outFetchOk t.outPostOk now dryRun outs
  let kb := import_bots t.botPostOk dryRun bs srv.bots
  { incomingResults := ki.results
    outgoingResults := ko.results
    botResults := kb.results
    incomingCount := ki.successCount
    outgoingCount := ko.successCount
    botCount := kb.successCount
    totalImported := ki.successCount + ko.successCount + kb.successCount
    totalItems := ins.length + outs.length + bs.length
    server := ⟨ki.remoteAfter, ko.remoteAfter, kb.remoteAfter⟩
    calls := ki.calls ++ ko.calls ++ kb.calls }

/-- `import_all`: validate that all three required keys are present
(missing key: fatal `sys.exit` before any network call, modelled by the
error result carrying no outcome and no calls), then run the pipelines. -/
def import_all (f : ImportFile) (srv : Server) (t : Transport)
    (now : String) (dryRun : Bool) : Except String ImportOutcome :=
  match f.incoming?, f.outgoing?, f.bots? with
  | some ins, some outs, some bs => .ok (importAllRun ins outs bs srv t now dryRun)
  | _, _, _ => .error "Invalid file format"

/-- `export_all`, modelled as the envelope it writes: abort (`none`) if
the connectivity probe fails; a failed kind fetch exports that kind as
empty; if all three came back empty and the re-probe fails, abort.
File writing itself is I/O outside the model. -/
def export_all (srv : Server) (probeOk inOk outOk botOk reprobeOk : Bool) :
    Option ImportFile :=
  if !probeOk then none
  else
    let ins := if inOk then srv.incoming else []
    let outs := if outOk then srv.outgoing else []
    let bs := if botOk then srv.bots else []
    if ins.isEmpty && outs.isEmpty && bs.isEmpty && !reprobeOk then none
    else some ⟨some ins, some outs, some bs⟩

theorem dget_dset_self (d : Dict) (k : String) (v : JVal) :
    dget (dset d k v) k = some v := by
  induction d with
  | nil => simp [dset, dget]
  | cons p rest ih => by_cases h : p.1 = k <;> simp [dset, dget, h, ih]

theorem dget_dset_ne (d : Dict) (k k2 : String) (v : JVal) (h : k ≠ k2) :
    dget (dset d k v) k2 = dget d k2 := by
  induction d with
  | nil => simp [dset, dget, h]
  | cons p rest ih =>
    by_cases hp : p.1 = k
    · simp [dset, dget, hp, h]
    · simp [dset, dget, hp, ih]

theorem dget_stripKeys (d : Dict) (ks : List String) (k : String) :
    dget (stripKeys d ks) k = if ks.contains k then none else dget d k := by
  induction d with
  | nil => simp [stripKeys, dget]
  | cons p rest ih =>
    by_cases hc : ks.contains p.1 <;> by_cases hk : p.1 = k <;>
      simp_all [stripKeys, List.filter_cons, dget]

theorem dget_annotateDescription_descr (d : Dict) (now : String) :
    dget (annotateDescription d now) "description" =
      some (.str (if ((dget d "description").getD (.str "")).truthy
                  then ((dget d "description").getD (.str "")).toStr ++ "\n\n" ++ importNote now
                  else importNote now)) := by
  unfold annotateDescription
  by_cases h : ((dget d "description").getD (.str "")).truthy <;> simp [h, dget_dset_self]

theorem dget_annotateDescription_ne (d : Dict) (now : String) (k : String)
    (h : k ≠ "description") :
    dget (annotateDescription d now) k = dget d k := by
  unfold annotateDescription
  by_cases ht : ((dget d "description").getD (.str "")).truthy <;>
    simp [ht, dget_dset_ne _ _ _ _ (fun hh => h hh.symm)]

theorem webhookPayload_display_name (strip : List String) (idx : List Dict)
    (dryRun : Bool) (now : String) (hook : Dict)
    (hs : strip.contains "display_name" = false) :
    dget (webhookPayload strip idx dryRun now hook) "display_name" =
      if webhookDup idx dryRun hook
      then some (.str ((webhookOriginalName hook).toStr ++ " (imported)"))
      else dget hook "display_name" := by
  have hne : ("display_name" : String) ≠ "description" := by decide
  have hs2 : "display_name" ∉ strip := by simpa using hs
  unfold webhookPayload
  by_cases hd : webhookDup idx dryRun hook <;>
    simp [hd, dget_annotateDescription_ne _ _ _ hne, dget_dset_self, dget_stripKeys, hs2]

theorem webhookPayload_descr (strip : List String) (idx : List Dict)
    (dryRun : Bool) (now : String) (hook : Dict)
    (hs : strip.contains "description" = false) :
    dget (webhookPayload strip idx dryRun now hook) "description" =
      some (.str (if ((dget hook "description").getD (.str "")).truthy
                  then ((dget hook "description").getD (.str "")).toStr ++ "\n\n" ++ importNote now
                  else importNote now)) := by
  have hne : ("description" : String) ≠ "display_name" := by decide
  have hs2 : "description" ∉ strip := by simpa using hs
  unfold webhookPayload
  by_cases hd : webhookDup idx dryRun hook <;>
    simp [hd, dget_annotateDescription_descr, dget_dset_ne _ _ _ _ (fun hh => hne hh.symm),
      dget_stripKeys, hs2]

theorem webhookDup_iff (idx : List Dict) (dryRun : Bool) (hook : Dict) :
    webhookDup idx dryRun hook = true ↔
      dryRun = false ∧
        ∃ e ∈ idx, (dget e "display_name").getD .null = webhookOriginalName hook := by
  cases dryRun <;> simp [webhookDup, List.any_eq_true]

theorem webhookLoop_results_length (ep : String) (strip : List String) (idx : List Dict)
    (postOk : Nat → Bool) (now : String) (dryRun : Bool) (i : Nat) (hooks : List Dict) :
    (webhookLoop ep strip idx postOk now dryRun i hooks).results.length = hooks.length := by
  induction hooks generalizing i with
  | nil => rfl
  | cons h rest ih => simp [webhookLoop, ih]

theorem webhookLoop_results_getElem? (ep : String) (strip : List String) (idx : List Dict)
    (postOk : Nat → Bool) (now : String) (dryRun : Bool) (i j : Nat) (hooks : List Dict) :
    (webhookLoop ep strip idx postOk now dryRun i hooks).results[j]? =
      (hooks[j]?).map (fun h => webhookItemResult idx dryRun (postOk (i + j)) h) := by
  induction hooks generalizing i j with
  | nil => simp [webhookLoop]
  | cons h rest ih =>
    cases j with
    | zero => simp [webhookLoop]
    | succ j =>
      have : i + (j + 1) = (i + 1) + j := by omega
      simp [webhookLoop, ih (i + 1) j, this]

theorem webhookLoop_calls_getElem? (ep : String) (strip : List String) (idx : List Dict)
    (postOk : Nat → Bool) (now : String) (i j : Nat) (hooks : List Dict) :
    (webhookLoop ep strip idx postOk now false i hooks).calls[j]? =
      (hooks[j]?).map (fun h => ApiCall.post ep (webhookPayload strip idx false now h)) := by
  induction hooks generalizing i j with
  | nil => simp [webhookLoop]
  | cons h rest ih =>
    cases j with
    | zero => simp [webhookLoop]
    | succ j => simp [webhookLoop, ih (i + 1) j]

theorem webhookLoop_count_le (ep : String) (strip : List String) (idx : List Dict)
    (postOk : Nat → Bool) (now : String) (dryRun : Bool) (i : Nat) (hooks : List Dict) :
    (webhookLoop ep strip idx postOk now dryRun i hooks).count ≤ hooks.length := by
  induction hooks generalizing i with
  | nil => simp [webhookLoop]
  | cons h rest ih =>
    have := ih (i + 1)
    simp only [webhookLoop, List.length_cons]
    split <;> omega

theorem webhookLoop_count_all (ep : String) (strip : List String) (idx : List Dict)
    (postOk : Nat → Bool) (now : String) (dryRun : Bool) (i : Nat) (hooks : List Dict)
    (h : ∀ n, (dryRun || postOk n) = true) :
    (webhookLoop ep strip idx postOk now dryRun i hooks).count = hooks.length := by
  induction hooks generalizing i with
  | nil => simp [webhookLoop]
  | cons hk rest ih =>
    simp [webhookLoop, webhookItemResult, h i, ih (i + 1), Nat.add_comm]

theorem webhookLoop_dry (ep : String) (strip : List String) (idx : List Dict)
    (postOk : Nat → Bool) (now : String) (i : Nat) (hooks : List Dict) :
    (webhookLoop ep strip idx postOk now true i hooks).count = hooks.length ∧
    (webhookLoop ep strip idx postOk now true i hooks).created = [] ∧
    (webhookLoop ep strip idx postOk now true i hooks).calls = [] ∧
    ∀ r ∈ (webhookLoop ep strip idx postOk now true i hooks).results,
      r.renamed = false ∧ r.succeeded = true := by
  induction hooks generalizing i with
  | nil => simp [webhookLoop]
  | cons h rest ih =>
    obtain ⟨h1, h2, h3, h4⟩ := ih (i + 1)
    refine ⟨?_, ?_, ?_, ?_⟩
    · simp [webhookLoop, webhookItemResult, h1, Nat.add_comm]
    · simp [webhookLoop, h2]
    · simp [webhookLoop, h3]
    · intro r hr
      simp only [webhookLoop, List.mem_cons] at hr
      rcases hr with hr | hr
      · subst hr; simp [webhookItemResult, webhookDup]
      · exact h4 r hr

theorem webhookLoop_results_mem (ep : String) (strip : List String) (idx : List Dict)
    (postOk : Nat → Bool) (now : String) (dryRun : Bool) (i : Nat) (hooks : List Dict)
    (r : ItemResult) (hr : r ∈ (webhookLoop ep strip idx postOk now dryRun i hooks).results) :
    ∃ h ∈ hooks, ∃ n, r = webhookItemResult idx dryRun (postOk n) h := by
  induction hooks generalizing i with
  | nil => simp [webhookLoop] at hr
  | cons h rest ih =>
    simp only [webhookLoop, List.mem_cons] at hr
    rcases hr with hr | hr
    · exact ⟨h, List.mem_cons_self _ _, i, hr⟩
    · obtain ⟨h2, hmem, n, hb⟩ := ih (i + 1) hr
      exact ⟨h2, List.mem_cons_of_mem _ hmem, n, hb⟩

theorem webhookLoop_created_all (ep : String) (strip : List String) (idx : List Dict)
    (postOk : Nat → Bool) (now : String) (i : Nat) (hooks : List Dict)
    (h : ∀ n, postOk n = true) :
    (webhookLoop ep strip idx postOk now false i hooks).created =
      hooks.map (webhookPayload strip idx false now) := by
  induction hooks generalizing i with
  | nil => simp [webhookLoop]
  | cons hk rest ih => simp [webhookLoop, h i, ih (i + 1)]

theorem webhookLoop_count_single_fail (ep : String) (strip : List String) (idx : List Dict)
    (now : String) (k i : Nat) (hooks : List Dict) :
    (webhookLoop ep strip idx (fun n => decide (n ≠ k)) now false i hooks).count =
      if i ≤ k ∧ k < i + hooks.length then hooks.length - 1 else hooks.length := by
  induction hooks generalizing i with
  | nil => simp [webhookLoop]
  | cons h rest ih =>
    simp only [webhookLoop, webhookItemResult, Bool.false_or, ih (i + 1), List.length_cons]
    by_cases hik : i = k
    · have hd : decide (i ≠ k) = false := by simp [hik]
      rw [hd]
      simp only [Bool.false_eq_true, if_false]
      split_ifs <;> omega
    · have hd : decide (i ≠ k) = true := by simp [hik]
      rw [hd]
      simp only [if_pos rfl]
      split_ifs <;> omega

theorem botLoop_results_length (postOk : Nat → Bool) (dryRun : Bool) (i : Nat)
    (bots : List Dict) :
    (botLoop postOk dryRun i bots).results.length = bots.length := by
  induction bots generalizing i with
  | nil => rfl
  | cons b rest ih => simp [botLoop, ih]

theorem botLoop_results_getElem? (postOk : Nat → Bool) (dryRun : Bool) (i j : Nat)
    (bots : List Dict) :
    (botLoop postOk dryRun i bots).results[j]? =
      (bots[j]?).map (fun b => botItemResult dryRun (postOk (i + j)) b) := by
  induction bots generalizing i j with
  | nil => simp [botLoop]
  | cons b rest ih =>
    cases j with
    | zero => simp [botLoop]
    | succ j =>
      have : i + (j + 1) = (i + 1) + j := by omega
      simp [botLoop, ih (i + 1) j, this]

theorem botLoop_count_le (postOk : Nat → Bool) (dryRun : Bool) (i : Nat)
    (bots : List Dict) :
    (botLoop postOk dryRun i bots).count ≤ bots.length := by
  induction bots generalizing i with
  | nil => simp [botLoop]
  | cons b rest ih =>
    have := ih (i + 1)
    simp only [botLoop, List.length_cons]
    split <;> omega

theorem botLoop_count_all (postOk : Nat → Bool) (dryRun : Bool) (i : Nat)
    (bots : List Dict) (h : ∀ n, (dryRun || postOk n) = true) :
    (botLoop postOk dryRun i bots).count = bots.length := by
  induction bots generalizing i with
  | nil => simp [botLoop]
  | cons b rest ih =>
    simp [botLoop, botItemResult, h i, ih (i + 1), Nat.add_comm]

theorem botLoop_dry (postOk : Nat → Bool) (i : Nat) (bots : List Dict) :
    (botLoop postOk true i bots).count = bots.length ∧
    (botLoop postOk true i bots).created = [] ∧
    (botLoop postOk true i bots).calls = [] ∧
    ∀ r ∈ (botLoop postOk true i bots).results,
      r.renamed = false ∧ r.succeeded = true := by
  induction bots generalizing i with
  | nil => simp [botLoop]
  | cons b rest ih =>
    obtain ⟨h1, h2, h3, h4⟩ := ih (i + 1)
    refine ⟨?_, ?_, ?_, ?_⟩
    · simp [botLoop, botItemResult, h1, Nat.add_comm]
    · simp [botLoop, h2]
    · simp [botLoop, h3]
    · intro r hr
      simp only [botLoop, List.mem_cons] at hr
      rcases hr with hr | hr
      · subst hr; simp [botItemResult]
      · exact h4 r hr

theorem botLoop_results_mem (postOk : Nat → Bool) (dryRun : Bool) (i : Nat)
    (bots : List Dict) (r : ItemResult)
    (hr : r ∈ (botLoop postOk dryRun i bots).results) :
    ∃ b ∈ bots, ∃ n, r = botItemResult dryRun (postOk n) b := by
  induction bots generalizing i with
  | nil => simp [botLoop] at hr
  | cons b rest ih =>
    simp only [botLoop, List.mem_cons] at hr
    rcases hr with hr | hr
    · exact ⟨b, List.mem_cons_self _ _, i, hr⟩
    · obtain ⟨b2, hmem, n, hb⟩ := ih (i + 1) hr
      exact ⟨b2, List.mem_cons_of_mem _ hmem, n, hb⟩

theorem import_incoming_live (srv : List Dict) (postOk : Nat → Bool) (now : String)
    (hooks : List Dict) (h : hooks ≠ []) :
    import_incoming_webhooks srv true postOk now false hooks =
      ⟨(webhookLoop "hooks/incoming" incomingStrip srv postOk now false 0 hooks).results,
       (webhookLoop "hooks/incoming" incomingStrip srv postOk now false 0 hooks).count,
       srv ++ (webhookLoop "hooks/incoming" incomingStrip srv postOk now false 0 hooks).created,
       ApiCall.get "hooks/incoming" ::
         (webhookLoop "hooks/incoming" incomingStrip srv postOk now false 0 hooks).calls⟩ := by
  have hne : hooks.isEmpty = false := by
    cases hooks
    · exact absurd rfl h
    · rfl
  simp [import_incoming_webhooks, hne]

theorem import_outgoing_live (srv : List Dict) (postOk : Nat → Bool) (now : String)
    (hooks : List Dict) (h : hooks ≠ []) :
    import_outgoing_webhooks srv true postOk now false hooks =
      ⟨(webhookLoop "hooks/outgoing" outgoingStrip srv postOk now false 0 hooks).results,
       (webhookLoop "hooks/outgoing" outgoingStrip srv postOk now false 0 hooks).count,
       srv ++ (webhookLoop "hooks/outgoing" outgoingStrip srv postOk now false 0 hooks).created,
       ApiCall.get "hooks/outgoing" ::
         (webhookLoop "hooks/outgoing" outgoingStrip srv postOk now false 0 hooks).calls⟩ := by
  have hne : hooks.isEmpty = false := by
    cases hooks
    · exact absurd rfl h
    · rfl
  simp [import_outgoing_webhooks, hne]

theorem import_bots_live (srv : List Dict) (postOk : Nat → Bool) (bots : List Dict)
    (h : bots ≠ []) :
    import_bots postOk false bots srv =
      ⟨(botLoop postOk false 0 bots).results,
       (botLoop postOk false 0 bots).count,
       srv ++ (botLoop postOk false 0 bots).created,
       (botLoop postOk false 0 bots).calls⟩ := by
  have hne : bots.isEmpty = false := by
    cases bots
    · exact absurd rfl h
    · rfl
  simp [import_bots, hne]

theorem import_incoming_dry (srv : List Dict) (fetchOk : Bool) (postOk : Nat → Bool)
    (now : String) (hooks : List Dict) :
    (import_incoming_webhooks srv fetchOk postOk now true hooks).successCount = hooks.length ∧
    (import_incoming_webhooks srv fetchOk postOk now true hooks).remoteAfter = srv ∧
    (import_incoming_webhooks srv fetchOk postOk now true hooks).calls = [] ∧
    ∀ r ∈ (import_incoming_webhooks srv fetchOk postOk now true hooks).results,
      r.renamed = false ∧ r.succeeded = true := by
  by_cases he : hooks.isEmpty
  · have : hooks = [] := by
      cases hooks
      · rfl
      · simp [List.isEmpty] at he
    subst this
    simp [import_incoming_webhooks]
  · have hne : hooks.isEmpty = false := by simpa using he
    obtain ⟨h1, h2, h3, h4⟩ := webhookLoop_dry "hooks/incoming" incomingStrip [] postOk now 0 hooks
    refine ⟨?_, ?_, ?_, ?_⟩ <;> simp [import_incoming_webhooks, hne, h1, h2, h3]
    exact h4

theorem import_outgoing_dry (srv : List Dict) (fetchOk : Bool) (postOk : Nat → Bool)
    (now : String) (hooks : List Dict) :
    (import_outgoing_webhooks srv fetchOk postOk now true hooks).successCount = hooks.length ∧
    (import_outgoing_webhooks srv fetchOk postOk now true hooks).remoteAfter = srv ∧
    (import_outgoing_webhooks srv fetchOk postOk now true hooks).calls = [] ∧
    ∀ r ∈ (import_outgoing_webhooks srv fetchOk postOk now true hooks).results,
      r.renamed = false ∧ r.succeeded = true := by
  by_cases he : hooks.isEmpty
  · have : hooks = [] := by
      cases hooks
      · rfl
      · simp [List.isEmpty] at he
    subst this
    simp [import_outgoing_webhooks]
  · have hne : hooks.isEmpty = false := by simpa using he
    obtain ⟨h1, h2, h3, h4⟩ := webhookLoop_dry "hooks/outgoing" outgoingStrip [] postOk now 0 hooks
    refine ⟨?_, ?_, ?_, ?_⟩ <;> simp [import_outgoing_webhooks, hne, h1, h2, h3]
    exact h4

theorem import_bots_dry (srv : List Dict) (postOk : Nat → Bool) (bots : List Dict) :
    (import_bots postOk true bots srv).successCount = bots.length ∧
    (import_bots postOk true bots srv).remoteAfter = srv ∧
    (import_bots postOk true bots srv).calls = [] ∧
    ∀ r ∈ (import_bots postOk true bots srv).results,
      r.renamed = false ∧ r.succeeded = true := by
  by_cases he : bots.isEmpty
  · have : bots = [] := by
      cases bots
      · rfl
      · simp [List.isEmpty] at he
    subst this
    simp [import_bots]
  · have hne : bots.isEmpty = false := by simpa using he
    obtain ⟨h1, h2, h3, h4⟩ := botLoop_dry postOk 0 bots
    refine ⟨?_, ?_, ?_, ?_⟩ <;> simp [import_bots, hne, h1, h2, h3]
    exact h4

/-- C2, counterexample: the claim says that for incoming and outgoing
webhooks the removed field set includes `user_id`; in the code only
bots strip `user_id` — a webhook record's `user_id` survives both the
stripping step and the final creation payload. -/
theorem c2_counterexample :
    dget (stripKeys [("user_id", JVal.str "u1"), ("channel_id", JVal.str "c1")]
        incomingStrip) "user_id" = some (JVal.str "u1") ∧
    dget (stripKeys [("user_id", JVal.str "u1"), ("channel_id", JVal.str "c1")]
        outgoingStrip) "user_id" = some (JVal.str "u1") ∧
    dget (webhookPayload incomingStrip [] false "2025-01-01 00:00:00"
        [("user_id", JVal.str "u1"), ("channel_id", JVal.str "c1")]) "user_id"
      ≠ none := by
  refine ⟨rfl, rfl, ?_⟩
  intro h
  simp [webhookPayload, webhookDup, webhookOriginalName, stripKeys, annotateDescription,
    dget, dset, importNote] at h

/-- C2, amended: the creation payload of the sanitization step removes
exactly the kind-specific server-assigned keys and preserves every other
field: `id`, `create_at`, `update_at`, `delete_at` for incoming
webhooks, those plus `token` for outgoing webhooks, and `user_id`,
`create_at`, `update_at`, `delete_at`, `owner_id` for bots — `user_id`
is not removed from webhooks, nor `id` from bots. -/
theorem c2_amended_field_sets :
    incomingStrip = ["id", "create_at", "update_at", "delete_at"] ∧
    outgoingStrip = ["id", "create_at", "update_at", "delete_at", "token"] ∧
    botStrip = ["user_id", "create_at", "update_at", "delete_at", "owner_id"] ∧
    ∀ (r : Dict) (k : String),
      dget (stripKeys r incomingStrip) k
          = (if incomingStrip.contains k then none else dget r k) ∧
      dget (stripKeys r outgoingStrip) k
          = (if outgoingStrip.contains k then none else dget r k) ∧
      dget (botPayload r) k = (if botStrip.contains k then none else dget r k) :=
  ⟨rfl, rfl, rfl, fun r k =>
    ⟨dget_stripKeys r _ k, dget_stripKeys r _ k, dget_stripKeys r _ k⟩⟩

/-- C5, counterexample: the claim says every imported record of any kind
gets the provenance note appended to its description; bot payloads keep
their description unchanged, and the live bot import posts exactly that
unannotated payload. -/
theorem c5_counterexample :
    dget (botPayload [("username", JVal.str "helper"), ("description", JVal.str "d")])
        "description" = some (JVal.str "d") ∧
    JVal.str "d" ≠ JVal.str ("d" ++ "\n\n" ++ importNote "2025-01-01 00:00:00") ∧
    (import_bots (fun _ => true) false
        [[("username", JVal.str "helper"), ("description", JVal.str "d")]] []).calls
      = [ApiCall.post "bots"
          (botPayload [("username", JVal.str "helper"), ("description", JVal.str "d")])] := by
  refine ⟨rfl, ?_, rfl⟩
  intro h
  simp [importNote] at h

/-- C5, amended: for incoming and outgoing webhook payloads the
description rule holds as claimed (non-empty original description gets
the note after a blank line, empty or absent description becomes the
note alone), but a bot creation payload keeps the snapshot record's
description unchanged — bots never receive the provenance note. -/
theorem c5_amended_descriptions (idx : List Dict) (dryRun : Bool) (now : String)
    (hook : Dict) :
    (∀ s, s ≠ "" → dget hook "description" = some (JVal.str s) →
      dget (webhookPayload incomingStrip idx dryRun now hook) "description"
          = some (JVal.str (s ++ "\n\n" ++ importNote now)) ∧
      dget (webhookPayload outgoingStrip idx dryRun now hook) "description"
          = some (JVal.str (s ++ "\n\n" ++ importNote now))) ∧
    ((dget hook "description" = none ∨ dget hook "description" = some (JVal.str "")) →
      dget (webhookPayload incomingStrip idx dryRun now hook) "description"
          = some (JVal.str (importNote now)) ∧
      dget (webhookPayload outgoingStrip idx dryRun now hook) "description"
          = some (JVal.str (importNote now))) ∧
    (∀ bot : Dict, dget (botPayload bot) "description" = dget bot "description") := by
  have hin : incomingStrip.contains "description" = false := rfl
  have hout : outgoingStrip.contains "description" = false := rfl
  have hbot : botStrip.contains "description" = false := rfl
  refine ⟨?_, ?_, ?_⟩
  · intro s hs hdesc
    constructor
    · rw [webhookPayload_descr _ _ _ _ _ hin, hdesc]
      simp [JVal.truthy, JVal.toStr, hs]
    · rw [webhookPayload_descr _ _ _ _ _ hout, hdesc]
      simp [JVal.truthy, JVal.toStr, hs]
  · intro hdesc
    rcases hdesc with hdesc | hdesc <;>
      constructor <;>
        first
          | rw [webhookPayload_descr _ _ _ _ _ hin, hdesc]; simp [JVal.truthy]
          | rw [webhookPayload_descr _ _ _ _ _ hout, hdesc]; simp [JVal.truthy]
  · intro bot
    rw [show botPayload bot = stripKeys bot botStrip from rfl, dget_stripKeys, hbot]
    simp

/-- C5 amended, witness at a concrete webhook with description "d". -/
theorem c5_amended_descriptions_witness :
    dget (webhookPayload incomingStrip [] false "2025-01-01 00:00:00"
        [("description", JVal.str "d")]) "description"
      = some (JVal.str ("d" ++ "\n\n" ++ importNote "2025-01-01 00:00:00")) :=
  ((c5_amended_descriptions [] false "2025-01-01 00:00:00"
      [("description", JVal.str "d")]).1 "d" (by simp) rfl).1

/-- C4: if any of the three required keys is missing, `import_all`
terminates with the fatal format error before any pipeline runs (the
error result carries no outcome, so no network call is modelled); a file
with all three keys present — even as empty lists — passes validation
and reaches the pipelines. -/
theorem c4_validation (f : ImportFile) (srv : Server) (t : Transport) (now : String)
    (dryRun : Bool) :
    (validEnvelope f = false →
      import_all f srv t now dryRun = Except.error "Invalid file format") ∧
    (∀ ins outs bs, f = ⟨some ins, some outs, some bs⟩ →
      validEnvelope f = true ∧
      import_all f srv t now dryRun
        = Except.ok (importAllRun ins outs bs srv t now dryRun)) := by
  constructor
  · intro hv
    unfold import_all
    cases hin : f.incoming? <;> cases hout : f.outgoing? <;> cases hbs : f.bots? <;>
      simp_all [validEnvelope]
  · rintro ins outs bs rfl
    exact ⟨rfl, rfl⟩

/-- C4, witness: a file missing `incoming_webhooks` fails fatally, and a
file with the three keys as empty lists passes. -/
theorem c4_validation_witness :
    import_all ⟨none, some [], some []⟩ ⟨[], [], []⟩ allOkTransport "" false
        = Except.error "Invalid file format" ∧
    import_all ⟨some [], some [], some []⟩ ⟨[], [], []⟩ allOkTransport "" false
        = Except.ok (importAllRun [] [] [] ⟨[], [], []⟩ allOkTransport "" false) :=
  ⟨(c4_validation ⟨none, some [], some []⟩ ⟨[], [], []⟩ allOkTransport "" false).1 rfl,
   ((c4_validation ⟨some [], some [], some []⟩ ⟨[], [], []⟩ allOkTransport "" false).2
      [] [] [] rfl).2⟩

/-- C6: for each kind the returned success count never exceeds the
snapshot list's length, and equals it when no creation POST raises a
transport error. -/
theorem c6_success_counts (srv : List Dict) (fetchOk : Bool) (postOk : Nat → Bool)
    (now : String) (dryRun : Bool) (items : List Dict) :
    ((import_incoming_webhooks srv fetchOk postOk now dryRun items).successCount
        ≤ items.length ∧
      ((∀ n, postOk n = true) →
        (import_incoming_webhooks srv fetchOk postOk now dryRun items).successCount
          = items.length)) ∧
    ((import_outgoing_webhooks srv fetchOk postOk now dryRun items).successCount
        ≤ items.length ∧
      ((∀ n, postOk n = true) →
        (import_outgoing_webhooks srv fetchOk postOk now dryRun items).successCount
          = items.length)) ∧
    ((import_bots postOk dryRun items srv).successCount ≤ items.length ∧
      ((∀ n, postOk n = true) →
        (import_bots postOk dryRun items srv).successCount = items.length)) := by
  by_cases he : items.isEmpty
  · have hnil : items = [] := by
      cases items
      · rfl
      · simp [List.isEmpty] at he
    subst hnil
    simp [import_incoming_webhooks, import_outgoing_webhooks, import_bots]
  · have hne : items.isEmpty = false := by simpa using he
    refine ⟨⟨?_, ?_⟩, ⟨?_, ?_⟩, ⟨?_, ?_⟩⟩
    · simp only [import_incoming_webhooks, hne, Bool.false_eq_true, if_false]
      exact webhookLoop_count_le _ _ _ _ _ _ _ _
    · intro hp
      simp only [import_incoming_webhooks, hne, Bool.false_eq_true, if_false]
      exact webhookLoop_count_all _ _ _ _ _ _ _ _ (fun n => by simp [hp n])
    · simp only [import_outgoing_webhooks, hne, Bool.false_eq_true, if_false]
      exact webhookLoop_count_le _ _ _ _ _ _ _ _
    · intro hp
      simp only [import_outgoing_webhooks, hne, Bool.false_eq_true, if_false]
      exact webhookLoop_count_all _ _ _ _ _ _ _ _ (fun n => by simp [hp n])
    · simp only [import_bots, hne, Bool.false_eq_true, if_false]
      exact botLoop_count_le _ _ _ _
    · intro hp
      simp only [import_bots, hne, Bool.false_eq_true, if_false]
      exact botLoop_count_all _ _ _ _ (fun n => by simp [hp n])

/-- C6, witness: with a one-element snapshot and an error-free
transport, the incoming success count is exactly 1. -/
theorem c6_success_counts_witness :
    (import_incoming_webhooks [] true (fun _ => true) "" false
        [[("display_name", JVal.str "A")]]).successCount = 1 :=
  (c6_success_counts [] true (fun _ => true) "" false
      [[("display_name", JVal.str "A")]]).1.2 (fun _ => rfl)

/-- C3: a dry-run import of any valid file makes zero network calls (no
creation POST and no collision pre-fetch GET), leaves every remote
collection unchanged, reports as imported exactly the total item count a
live run would attempt, and never marks an item renamed. -/
theorem c3_dry_run (ins outs bs : List Dict) (srv : Server) (t : Transport) (now : String) :
    import_all ⟨some ins, some outs, some bs⟩ srv t now true
        = Except.ok (importAllRun ins outs bs srv t now true) ∧
    (importAllRun ins outs bs srv t now true).calls = [] ∧
    (importAllRun ins outs bs srv t now true).server = srv ∧
    (importAllRun ins outs bs srv t now true).totalItems
        = ins.length + outs.length + bs.length ∧
    (importAllRun ins outs bs srv t now true).totalImported
        = (importAllRun ins outs bs srv t now true).totalItems ∧
    (importAllRun ins outs bs srv t now true).totalItems
        = (importAllRun ins outs bs srv t now false).totalItems ∧
    (∀ r ∈ (importAllRun ins outs bs srv t now true).incomingResults, r.renamed = false) ∧
    (∀ r ∈ (importAllRun ins outs bs srv t now true).outgoingResults, r.renamed = false) ∧
    (∀ r ∈ (importAllRun ins outs bs srv t now true).botResults, r.renamed = false) := by
  obtain ⟨i1, i2, i3, i4⟩ := import_incoming_dry srv.incoming t.inFetchOk t.inPostOk now ins
  obtain ⟨o1, o2, o3, o4⟩ := import_outgoing_dry srv.outgoing t.outFetchOk t.outPostOk now outs
  obtain ⟨b1, b2, b3, b4⟩ := import_bots_dry srv.bots t.botPostOk bs
  refine ⟨rfl, ?_, ?_, rfl, ?_, rfl, ?_, ?_, ?_⟩
  · simp [importAllRun, i3, o3, b3]
  · simp [importAllRun, i2, o2, b2]
  · simp [importAllRun, i1, o1, b1]
  · intro r hr
    exact (i4 r hr).1
  · intro r hr
    exact (o4 r hr).1
  · intro r hr
    exact (b4 r hr).1

theorem import_incoming_live_calls (srv : List Dict) (postOk : Nat → Bool) (now : String)
    (hooks : List Dict) (h : hooks ≠ []) :
    (import_incoming_webhooks srv true postOk now false hooks).calls =
      ApiCall.get "hooks/incoming" ::
        (webhookLoop "hooks/incoming" incomingStrip srv postOk now false 0 hooks).calls := by
  rw [import_incoming_live srv postOk now hooks h]

theorem import_incoming_live_results (srv : List Dict) (postOk : Nat → Bool) (now : String)
    (hooks : List Dict) (h : hooks ≠ []) :
    (import_incoming_webhooks srv true postOk now false hooks).results =
      (webhookLoop "hooks/incoming" incomingStrip srv postOk now false 0 hooks).results := by
  rw [import_incoming_live srv postOk now hooks h]

theorem import_incoming_live_remote (srv : List Dict) (postOk : Nat → Bool) (now : String)
    (hooks : List Dict) (h : hooks ≠ []) :
    (import_incoming_webhooks srv true postOk now false hooks).remoteAfter =
      srv ++ (webhookLoop "hooks/incoming" incomingStrip srv postOk now false 0 hooks).created := by
  rw [import_incoming_live srv postOk now hooks h]

theorem import_outgoing_live_calls (srv : List Dict) (postOk : Nat → Bool) (now : String)
    (hooks : List Dict) (h : hooks ≠ []) :
    (import_outgoing_webhooks srv true postOk now false hooks).calls =
      ApiCall.get "hooks/outgoing" ::
        (webhookLoop "hooks/outgoing" outgoingStrip srv postOk now false 0 hooks).calls := by
  rw [import_outgoing_live srv postOk now hooks h]

theorem import_outgoing_live_results (srv : List Dict) (postOk : Nat → Bool) (now : String)
    (hooks : List Dict) (h : hooks ≠ []) :
    (import_outgoing_webhooks srv true postOk now false hooks).results =
      (webhookLoop "hooks/outgoing" outgoingStrip srv postOk now false 0 hooks).results := by
  rw [import_outgoing_live srv postOk now hooks h]

theorem import_outgoing_live_remote (srv : List Dict) (postOk : Nat → Bool) (now : String)
    (hooks : List Dict) (h : hooks ≠ []) :
    (import_outgoing_webhooks srv true postOk now false hooks).remoteAfter =
      srv ++ (webhookLoop "hooks/outgoing" outgoingStrip srv postOk now false 0 hooks).created := by
  rw [import_outgoing_live srv postOk now hooks h]

/-- C1: in a live (non-dry-run) import with a successful pre-fetch, the
`i`-th webhook item's POST carries the payload built against the fetched
collection, and that payload's display name is the snapshot record's own
when no remote webhook of the kind matches the original name (item not
flagged renamed), and is the original name with the suffix
" (imported)" when some remote webhook matches (item flagged renamed).
Holds for the incoming and the outgoing pipeline alike. -/
theorem c1_collision_rename (srv hooks : List Dict) (postOk : Nat → Bool) (now : String)
    (i : Nat) (hi : i < hooks.length) :
    (import_incoming_webhooks srv true postOk now false hooks).calls[i + 1]? =
      some (ApiCall.post "hooks/incoming"
        (webhookPayload incomingStrip srv false now (hooks.get ⟨i, hi⟩))) ∧
    (import_incoming_webhooks srv true postOk now false hooks).results[i]? =
      some (webhookItemResult srv false (postOk i) (hooks.get ⟨i, hi⟩)) ∧
    (import_outgoing_webhooks srv true postOk now false hooks).calls[i + 1]? =
      some (ApiCall.post "hooks/outgoing"
        (webhookPayload outgoingStrip srv false now (hooks.get ⟨i, hi⟩))) ∧
    (import_outgoing_webhooks srv true postOk now false hooks).results[i]? =
      some (webhookItemResult srv false (postOk i) (hooks.get ⟨i, hi⟩)) ∧
    ((¬ ∃ e ∈ srv, (dget e "display_name").getD .null
          = webhookOriginalName (hooks.get ⟨i, hi⟩)) →
      dget (webhookPayload incomingStrip srv false now (hooks.get ⟨i, hi⟩)) "display_name"
          = dget (hooks.get ⟨i, hi⟩) "display_name" ∧
      dget (webhookPayload outgoingStrip srv false now (hooks.get ⟨i, hi⟩)) "display_name"
          = dget (hooks.get ⟨i, hi⟩) "display_name" ∧
      (webhookItemResult srv false (postOk i) (hooks.get ⟨i, hi⟩)).renamed = false) ∧
    ((∃ e ∈ srv, (dget e "display_name").getD .null
          = webhookOriginalName (hooks.get ⟨i, hi⟩)) →
      dget (webhookPayload incomingStrip srv false now (hooks.get ⟨i, hi⟩)) "display_name"
          = some (.str ((webhookOriginalName (hooks.get ⟨i, hi⟩)).toStr ++ " (imported)")) ∧
      dget (webhookPayload outgoingStrip srv false now (hooks.get ⟨i, hi⟩)) "display_name"
          = some (.str ((webhookOriginalName (hooks.get ⟨i, hi⟩)).toStr ++ " (imported)")) ∧
      (webhookItemResult srv false (postOk i) (hooks.get ⟨i, hi⟩)).renamed = true) := by
  have hnil : hooks ≠ [] := by
    intro h
    subst h
    simp at hi
  have hget : hooks[i]? = some (hooks.get ⟨i, hi⟩) := by
    rw [List.getElem?_eq_getElem hi]
    rfl
  have hin : incomingStrip.contains "display_name" = false := rfl
  have hout : outgoingStrip.contains "display_name" = false := rfl
  refine ⟨?_, ?_, ?_, ?_, ?_, ?_⟩
  · rw [import_incoming_live_calls srv postOk now hooks hnil, List.getElem?_cons_succ,
      webhookLoop_calls_getElem?, hget]
    rfl
  · rw [import_incoming_live_results srv postOk now hooks hnil,
      webhookLoop_results_getElem?, hget]
    simp
  · rw [import_outgoing_live_calls srv postOk now hooks hnil, List.getElem?_cons_succ,
      webhookLoop_calls_getElem?, hget]
    rfl
  · rw [import_outgoing_live_results srv postOk now hooks hnil,
      webhookLoop_results_getElem?, hget]
    simp
  · intro hno
    have hdup : webhookDup srv false (hooks.get ⟨i, hi⟩) = false := by
      cases h : webhookDup srv false (hooks.get ⟨i, hi⟩)
      · rfl
      · exact absurd ((webhookDup_iff srv false _).mp h).2 hno
    refine ⟨?_, ?_, ?_⟩
    · rw [webhookPayload_display_name _ _ _ _ _ hin, hdup]
      simp
    · rw [webhookPayload_display_name _ _ _ _ _ hout, hdup]
      simp
    · simp only [webhookItemResult]
      exact hdup
  · intro hyes
    have hdup : webhookDup srv false (hooks.get ⟨i, hi⟩) = true :=
      (webhookDup_iff srv false _).mpr ⟨rfl, hyes⟩
    refine ⟨?_, ?_, ?_⟩
    · rw [webhookPayload_display_name _ _ _ _ _ hin, hdup]
      simp
    · rw [webhookPayload_display_name _ _ _ _ _ hout, hdup]
      simp
    · simp only [webhookItemResult]
      exact hdup

/-- C1, witness at a singleton snapshot against an empty remote
collection. -/
theorem c1_collision_rename_witness :
    (import_incoming_webhooks [] true (fun _ => true) "t" false
        [[("display_name", JVal.str "A")]]).results[0]?
      = some (webhookItemResult [] false true [("display_name", JVal.str "A")]) :=
  (c1_collision_rename [] [[("display_name", JVal.str "A")]] (fun _ => true) "t" 0
    (by decide)).2.1

theorem import_incoming_results_length (srv : List Dict) (fetchOk : Bool)
    (postOk : Nat → Bool) (now : String) (dryRun : Bool) (items : List Dict) :
    (import_incoming_webhooks srv fetchOk postOk now dryRun items).results.length
      = items.length := by
  by_cases he : items.isEmpty
  · have hnil : items = [] := by
      cases items
      · rfl
      · simp [List.isEmpty] at he
    subst hnil
    simp [import_incoming_webhooks]
  · have hne : items.isEmpty = false := by simpa using he
    simp [import_incoming_webhooks, hne, webhookLoop_results_length]

theorem import_outgoing_results_length (srv : List Dict) (fetchOk : Bool)
    (postOk : Nat → Bool) (now : String) (dryRun : Bool) (items : List Dict) :
    (import_outgoing_webhooks srv fetchOk postOk now dryRun items).results.length
      = items.length := by
  by_cases he : items.isEmpty
  · have hnil : items = [] := by
      cases items
      · rfl
      · simp [List.isEmpty] at he
    subst hnil
    simp [import_outgoing_webhooks]
  · have hne : items.isEmpty = false := by simpa using he
    simp [import_outgoing_webhooks, hne, webhookLoop_results_length]

theorem import_bots_results_length (srv : List Dict) (postOk : Nat → Bool)
    (dryRun : Bool) (bots : List Dict) :
    (import_bots postOk dryRun bots srv).results.length = bots.length := by
  by_cases he : bots.isEmpty
  · have hnil : bots = [] := by
      cases bots
      · rfl
      · simp [List.isEmpty] at he
    subst hnil
    simp [import_bots]
  · have hne : bots.isEmpty = false := by simpa using he
    simp [import_bots, hne, botLoop_results_length]

theorem import_incoming_count_all (srv : List Dict) (fetchOk : Bool)
    (postOk : Nat → Bool) (now : String) (dryRun : Bool) (items : List Dict)
    (hp : ∀ n, postOk n = true) :
    (import_incoming_webhooks srv fetchOk postOk now dryRun items).successCount
      = items.length := by
  by_cases he : items.isEmpty
  · have hnil : items = [] := by
      cases items
      · rfl
      · simp [List.isEmpty] at he
    subst hnil
    simp [import_incoming_webhooks]
  · have hne : items.isEmpty = false := by simpa using he
    simp only [import_incoming_webhooks, hne, Bool.false_eq_true, if_false]
    exact webhookLoop_count_all _ _ _ _ _ _ _ _ (fun n => by simp [hp n])

theorem import_outgoing_count_all (srv : List Dict) (fetchOk : Bool)
    (postOk : Nat → Bool) (now : String) (dryRun : Bool) (items : List Dict)
    (hp : ∀ n, postOk n = true) :
    (import_outgoing_webhooks srv fetchOk postOk now dryRun items).successCount
      = items.length := by
  by_cases he : items.isEmpty
  · have hnil : items = [] := by
      cases items
      · rfl
      · simp [List.isEmpty] at he
    subst hnil
    simp [import_outgoing_webhooks]
  · have hne : items.isEmpty = false := by simpa using he
    simp only [import_outgoing_webhooks, hne, Bool.false_eq_true, if_false]
    exact webhookLoop_count_all _ _ _ _ _ _ _ _ (fun n => by simp [hp n])

theorem import_bots_count_all (srv : List Dict) (postOk : Nat → Bool)
    (dryRun : Bool) (bots : List Dict) (hp : ∀ n, postOk n = true) :
    (import_bots postOk dryRun bots srv).successCount = bots.length := by
  by_cases he : bots.isEmpty
  · have hnil : bots = [] := by
      cases bots
      · rfl
      · simp [List.isEmpty] at he
    subst hnil
    simp [import_bots]
  · have hne : bots.isEmpty = false := by simpa using he
    simp only [import_bots, hne, Bool.false_eq_true, if_false]
    exact botLoop_count_all _ _ _ _ (fun n => by simp [hp n])

theorem import_incoming_results_mem (srv : List Dict) (fetchOk : Bool)
    (postOk : Nat → Bool) (now : String) (items : List Dict) (r : ItemResult)
    (hr : r ∈ (import_incoming_webhooks srv fetchOk postOk now false items).results) :
    ∃ h ∈ items, ∃ n,
      r = webhookItemResult (if fetchOk then srv else []) false (postOk n) h := by
  by_cases he : items.isEmpty
  · have hnil : items = [] := by
      cases items
      · rfl
      · simp [List.isEmpty] at he
    subst hnil
    simp [import_incoming_webhooks] at hr
  · have hne : items.isEmpty = false := by simpa using he
    simp only [import_incoming_webhooks, hne, Bool.false_eq_true, if_false] at hr
    exact webhookLoop_results_mem _ _ _ _ _ _ _ _ r hr

theorem import_outgoing_results_mem (srv : List Dict) (fetchOk : Bool)
    (postOk : Nat → Bool) (now : String) (items : List Dict) (r : ItemResult)
    (hr : r ∈ (import_outgoing_webhooks srv fetchOk postOk now false items).results) :
    ∃ h ∈ items, ∃ n,
      r = webhookItemResult (if fetchOk then srv else []) false (postOk n) h := by
  by_cases he : items.isEmpty
  · have hnil : items = [] := by
      cases items
      · rfl
      · simp [List.isEmpty] at he
    subst hnil
    simp [import_outgoing_webhooks] at hr
  · have hne : items.isEmpty = false := by simpa using he
    simp only [import_outgoing_webhooks, hne, Bool.false_eq_true, if_false] at hr
    exact webhookLoop_results_mem _ _ _ _ _ _ _ _ r hr

theorem import_bots_results_mem (srv : List Dict) (postOk : Nat → Bool) (dryRun : Bool)
    (bots : List Dict) (r : ItemResult)
    (hr : r ∈ (import_bots postOk dryRun bots srv).results) :
    ∃ b ∈ bots, ∃ n, r = botItemResult dryRun (postOk n) b := by
  by_cases he : bots.isEmpty
  · have hnil : bots = [] := by
      cases bots
      · rfl
      · simp [List.isEmpty] at he
    subst hnil
    simp [import_bots] at hr
  · have hne : bots.isEmpty = false := by simpa using he
    simp only [import_bots, hne] at hr
    exact botLoop_results_mem _ _ _ _ r hr

theorem import_incoming_renamed_empty_idx (postOk : Nat → Bool) (now : String)
    (items : List Dict) :
    ∀ r ∈ (import_incoming_webhooks [] true postOk now false items).results,
      r.renamed = false := by
  intro r hr
  obtain ⟨h, hmem, n, rfl⟩ := import_incoming_results_mem [] true postOk now items r hr
  simp [webhookItemResult, webhookDup]

theorem import_outgoing_renamed_empty_idx (postOk : Nat → Bool) (now : String)
    (items : List Dict) :
    ∀ r ∈ (import_outgoing_webhooks [] true postOk now false items).results,
      r.renamed = false := by
  intro r hr
  obtain ⟨h, hmem, n, rfl⟩ := import_outgoing_results_mem [] true postOk now items r hr
  simp [webhookItemResult, webhookDup]

theorem import_bots_renamed (srv : List Dict) (postOk : Nat → Bool) (dryRun : Bool)
    (bots : List Dict) :
    ∀ r ∈ (import_bots postOk dryRun bots srv).results, r.renamed = false := by
  intro r hr
  obtain ⟨b, hmem, n, rfl⟩ := import_bots_results_mem srv postOk dryRun bots r hr
  simp [botItemResult]

/-- C9: exporting a server's state (connectivity probe and all three
fetches succeed) yields the envelope of its three collections, and
importing that exact envelope into an empty server with an error-free
transport succeeds for every item of every kind (success count equals
total count, summed totals equal) and marks no item renamed. -/
theorem c9_round_trip (srv : Server) (now : String) :
    export_all srv true true true true true
        = some ⟨some srv.incoming, some srv.outgoing, some srv.bots⟩ ∧
    import_all ⟨some srv.incoming, some srv.outgoing, some srv.bots⟩ ⟨[], [], []⟩
        allOkTransport now false
      = Except.ok (importAllRun srv.incoming srv.outgoing srv.bots ⟨[], [], []⟩
          allOkTransport now false) ∧
    (importAllRun srv.incoming srv.outgoing srv.bots ⟨[], [], []⟩
        allOkTransport now false).incomingCount = srv.incoming.length ∧
    (importAllRun srv.incoming srv.outgoing srv.bots ⟨[], [], []⟩
        allOkTransport now false).outgoingCount = srv.outgoing.length ∧
    (importAllRun srv.incoming srv.outgoing srv.bots ⟨[], [], []⟩
        allOkTransport now false).botCount = srv.bots.length ∧
    (importAllRun srv.incoming srv.outgoing srv.bots ⟨[], [], []⟩
        allOkTransport now false).totalImported
      = (importAllRun srv.incoming srv.outgoing srv.bots ⟨[], [], []⟩
          allOkTransport now false).totalItems ∧
    (∀ r ∈ (importAllRun srv.incoming srv.outgoing srv.bots ⟨[], [], []⟩
        allOkTransport now false).incomingResults, r.renamed = false) ∧
    (∀ r ∈ (importAllRun srv.incoming srv.outgoing srv.bots ⟨[], [], []⟩
        allOkTransport now false).outgoingResults, r.renamed = false) ∧
    (∀ r ∈ (importAllRun srv.incoming srv.outgoing srv.bots ⟨[], [], []⟩
        allOkTransport now false).botResults, r.renamed = false) := by
  have hi := import_incoming_count_all [] true (fun _ => true) now false srv.incoming
    (fun _ => rfl)
  have ho := import_outgoing_count_all [] true (fun _ => true) now false srv.outgoing
    (fun _ => rfl)
  have hb := import_bots_count_all [] (fun _ => true) false srv.bots (fun _ => rfl)
  refine ⟨?_, rfl, hi, ho, hb, ?_, ?_, ?_, ?_⟩
  · simp [export_all]
  · show (import_incoming_webhooks [] true (fun _ => true) now false srv.incoming).successCount
        + (import_outgoing_webhooks [] true (fun _ => true) now false srv.outgoing).successCount
        + (import_bots (fun _ => true) false srv.bots []).successCount
      = srv.incoming.length + srv.outgoing.length + srv.bots.length
    rw [hi, ho, hb]
  · exact import_incoming_renamed_empty_idx (fun _ => true) now srv.incoming
  · exact import_outgoing_renamed_empty_idx (fun _ => true) now srv.outgoing
  · exact import_bots_renamed [] (fun _ => true) false srv.bots

theorem import_incoming_live_count (srv : List Dict) (postOk : Nat → Bool) (now : String)
    (hooks : List Dict) (h : hooks ≠ []) :
    (import_incoming_webhooks srv true postOk now false hooks).successCount =
      (webhookLoop "hooks/incoming" incomingStrip srv postOk now false 0 hooks).count := by
  rw [import_incoming_live srv postOk now hooks h]

/-- A transport on which exactly the `k`-th incoming-webhook creation
POST fails and every other call succeeds. -/
def singleFailIncoming (k : Nat) : Transport :=
  ⟨true, true, fun n => decide (n ≠ k), fun _ => true, fun _ => true⟩

/-- C7: when exactly one incoming-webhook creation raises a transport
error, only that item is reported failed (all items of its kind are
still processed and every other item of every kind succeeds), the kind's
success count drops by exactly one, the other kinds' pipelines still run
fully, and the run is the three pipelines in the fixed order incoming,
outgoing, bots with successes and totals summed. -/
theorem c7_failure_isolation (ins outs bs : List Dict) (srv : Server) (now : String)
    (k : Nat) (hk : k < ins.length) :
    (importAllRun ins outs bs srv (singleFailIncoming k) now false).incomingResults.length
        = ins.length ∧
    (importAllRun ins outs bs srv (singleFailIncoming k) now false).outgoingResults.length
        = outs.length ∧
    (importAllRun ins outs bs srv (singleFailIncoming k) now false).botResults.length
        = bs.length ∧
    (∀ j, j < ins.length → ∃ r,
      (importAllRun ins outs bs srv (singleFailIncoming k) now false).incomingResults[j]?
          = some r ∧ r.succeeded = decide (j ≠ k)) ∧
    (∀ r ∈ (importAllRun ins outs bs srv (singleFailIncoming k) now false).outgoingResults,
      r.succeeded = true) ∧
    (∀ r ∈ (importAllRun ins outs bs srv (singleFailIncoming k) now false).botResults,
      r.succeeded = true) ∧
    (importAllRun ins outs bs srv (singleFailIncoming k) now false).incomingCount
        = ins.length - 1 ∧
    (importAllRun ins outs bs srv (singleFailIncoming k) now false).outgoingCount
        = outs.length ∧
    (importAllRun ins outs bs srv (singleFailIncoming k) now false).botCount
        = bs.length ∧
    (importAllRun ins outs bs srv (singleFailIncoming k) now false).totalImported
        = (ins.length - 1) + outs.length + bs.length ∧
    (importAllRun ins outs bs srv (singleFailIncoming k) now false).calls
        = (import_incoming_webhooks srv.incoming true (fun n => decide (n ≠ k))
            now false ins).calls
          ++ (import_outgoing_webhooks srv.outgoing true (fun _ => true)
              now false outs).calls
          ++ (import_bots (fun _ => true) false bs srv.bots).calls := by
  have hnil : ins ≠ [] := by
    intro h
    subst h
    simp at hk
  have h7 : (import_incoming_webhooks srv.incoming true (fun n => decide (n ≠ k))
      now false ins).successCount = ins.length - 1 := by
    rw [import_incoming_live_count srv.incoming _ now ins hnil,
      webhookLoop_count_single_fail,
      if_pos (⟨Nat.zero_le _, by omega⟩ : 0 ≤ k ∧ k < 0 + ins.length)]
  have h8 : (import_outgoing_webhooks srv.outgoing true (fun _ => true)
      now false outs).successCount = outs.length :=
    import_outgoing_count_all srv.outgoing true (fun _ => true) now false outs
      (fun _ => rfl)
  have h9 : (import_bots (fun _ => true) false bs srv.bots).successCount = bs.length :=
    import_bots_count_all srv.bots (fun _ => true) false bs (fun _ => rfl)
  refine ⟨import_incoming_results_length _ _ _ _ _ _,
    import_outgoing_results_length _ _ _ _ _ _,
    import_bots_results_length _ _ _ _, ?_, ?_, ?_, h7, h8, h9, ?_, rfl⟩
  · intro j hj
    show ∃ r, (import_incoming_webhooks srv.incoming true (fun n => decide (n ≠ k))
        now false ins).results[j]? = some r ∧ r.succeeded = decide (j ≠ k)
    rw [import_incoming_live_results srv.incoming _ now ins hnil,
      webhookLoop_results_getElem?, List.getElem?_eq_getElem hj]
    refine ⟨_, rfl, ?_⟩
    simp [webhookItemResult]
  · intro r hr
    obtain ⟨h, hmem, n, rfl⟩ :=
      import_outgoing_results_mem srv.outgoing true (fun _ => true) now outs r hr
    simp [webhookItemResult]
  · intro r hr
    obtain ⟨b, hmem, n, rfl⟩ :=
      import_bots_results_mem srv.bots (fun _ => true) false bs r hr
    simp [botItemResult]
  · show (import_incoming_webhooks srv.incoming true (fun n => decide (n ≠ k))
        now false ins).successCount
      + (import_outgoing_webhooks srv.outgoing true (fun _ => true)
          now false outs).successCount
      + (import_bots (fun _ => true) false bs srv.bots).successCount
      = (ins.length - 1) + outs.length + bs.length
    rw [h7, h8, h9]

/-- C7, witness: two incoming webhooks with the first creation failing
yield one success for that kind. -/
theorem c7_failure_isolation_witness :
    (importAllRun [[("display_name", JVal.str "A")], [("display_name", JVal.str "B")]]
        [] [] ⟨[], [], []⟩ (singleFailIncoming 0) "t" false).incomingCount = 2 - 1 :=
  (c7_failure_isolation [[("display_name", JVal.str "A")], [("display_name", JVal.str "B")]]
    [] [] ⟨[], [], []⟩ "t" 0 (by decide)).2.2.2.2.2.2.1

theorem import_incoming_remote_covers (srv : List Dict) (now : String) (ins : List Dict) :
    ∀ h ∈ ins, (dget h "display_name").isSome = true →
      ∃ e ∈ (import_incoming_webhooks srv true (fun _ => true) now false ins).remoteAfter,
        (dget e "display_name").getD .null = webhookOriginalName h := by
  intro h hmem hsome
  have hnil : ins ≠ [] := by
    rintro rfl
    simp at hmem
  rw [import_incoming_live_remote srv _ now ins hnil,
    webhookLoop_created_all _ _ _ _ _ _ _ (fun _ => rfl)]
  obtain ⟨v, hv⟩ := Option.isSome_iff_exists.mp hsome
  cases hd : webhookDup srv false h
  · refine ⟨webhookPayload incomingStrip srv false now h,
      List.mem_append_right _ (List.mem_map_of_mem _ hmem), ?_⟩
    rw [webhookPayload_display_name incomingStrip srv false now h rfl, hd]
    simp [webhookOriginalName, hv]
  · obtain ⟨-, e, he, hee⟩ := (webhookDup_iff srv false h).mp hd
    exact ⟨e, List.mem_append_left _ he, hee⟩

theorem import_outgoing_remote_covers (srv : List Dict) (now : String) (outs : List Dict) :
    ∀ h ∈ outs, (dget h "display_name").isSome = true →
      ∃ e ∈ (import_outgoing_webhooks srv true (fun _ => true) now false outs).remoteAfter,
        (dget e "display_name").getD .null = webhookOriginalName h := by
  intro h hmem hsome
  have hnil : outs ≠ [] := by
    rintro rfl
    simp at hmem
  rw [import_outgoing_live_remote srv _ now outs hnil,
    webhookLoop_created_all _ _ _ _ _ _ _ (fun _ => rfl)]
  obtain ⟨v, hv⟩ := Option.isSome_iff_exists.mp hsome
  cases hd : webhookDup srv false h
  · refine ⟨webhookPayload outgoingStrip srv false now h,
      List.mem_append_right _ (List.mem_map_of_mem _ hmem), ?_⟩
    rw [webhookPayload_display_name outgoingStrip srv false now h rfl, hd]
    simp [webhookOriginalName, hv]
  · obtain ⟨-, e, he, hee⟩ := (webhookDup_iff srv false h).mp hd
    exact ⟨e, List.mem_append_left _ he, hee⟩

/-- C8: after a fully successful live import of a snapshot whose webhook
records all carry a `display_name`, importing the same snapshot into the
resulting server again (any second-pass transport whose pre-fetches
succeed) marks every incoming and outgoing webhook item renamed on the
second pass: each item either collided already on the first pass (that
remote object is still there) or was created under its original name by
the first pass. -/
theorem c8_replay_renames (ins outs bs : List Dict) (srv : Server) (now1 now2 : String)
    (p1 p2 p3 : Nat → Bool)
    (hin : ∀ h ∈ ins, (dget h "display_name").isSome = true)
    (hout : ∀ h ∈ outs, (dget h "display_name").isSome = true) :
    (∀ r ∈ (importAllRun ins outs bs
        (importAllRun ins outs bs srv allOkTransport now1 false).server
        ⟨true, true, p1, p2, p3⟩ now2 false).incomingResults, r.renamed = true) ∧
    (∀ r ∈ (importAllRun ins outs bs
        (importAllRun ins outs bs srv allOkTransport now1 false).server
        ⟨true, true, p1, p2, p3⟩ now2 false).outgoingResults, r.renamed = true) := by
  constructor
  · intro r hr
    have hr2 : r ∈ (import_incoming_webhooks
        (import_incoming_webhooks srv.incoming true (fun _ => true) now1 false ins).remoteAfter
        true p1 now2 false ins).results := hr
    obtain ⟨h, hmem, n, rfl⟩ := import_incoming_results_mem _ true p1 now2 ins r hr2
    simp only [webhookItemResult]
    apply (webhookDup_iff _ false h).mpr
    refine ⟨rfl, ?_⟩
    have hcov := import_incoming_remote_covers srv.incoming now1 ins h hmem (hin h hmem)
    simpa using hcov
  · intro r hr
    have hr2 : r ∈ (import_outgoing_webhooks
        (import_outgoing_webhooks srv.outgoing true (fun _ => true) now1 false outs).remoteAfter
        true p2 now2 false outs).results := hr
    obtain ⟨h, hmem, n, rfl⟩ := import_outgoing_results_mem _ true p2 now2 outs r hr2
    simp only [webhookItemResult]
    apply (webhookDup_iff _ false h).mpr
    refine ⟨rfl, ?_⟩
    have hcov := import_outgoing_remote_covers srv.outgoing now1 outs h hmem (hout h hmem)
    simpa using hcov

/-- C8, witness: a singleton incoming snapshot imported twice into an
initially empty server is renamed everywhere on the second pass. -/
theorem c8_replay_renames_witness :
    ((importAllRun [[("display_name", JVal.str "A")]] [] []
        (importAllRun [[("display_name", JVal.str "A")]] [] [] ⟨[], [], []⟩
          allOkTransport "t1" false).server
        ⟨true, true, fun _ => true, fun _ => true, fun _ => true⟩ "t2"
        false).incomingResults.all (fun r => r.renamed)) = true := by
  rw [List.all_eq_true]
  intro r hr
  have h := (c8_replay_renames [[("display_name", JVal.str "A")]] [] [] ⟨[], [], []⟩
    "t1" "t2" (fun _ => true) (fun _ => true) (fun _ => true)
    (by intro h hh; simp at hh; subst hh; rfl)
    (by intro h hh; simp at hh)).1 r hr
  simp [h]

/-- C10: within one live incoming-webhook run the collision index is the
collection fetched once before the loop — every item's result is
computed against that same pre-fetched `srv`, never against objects
created during the run — so two snapshot items with the same original
display name are either both renamed or both left unrenamed; and the
rename is applied once without re-checking the renamed name, so a
payload renamed to "X (imported)" can itself equal the display name of
an existing remote webhook. -/
theorem c10_collision_index_fixed (srv hooks : List Dict) (postOk : Nat → Bool)
    (now : String) (i j : Nat) (hi : i < hooks.length) (hj : j < hooks.length)
    (hname : webhookOriginalName (hooks.get ⟨i, hi⟩)
        = webhookOriginalName (hooks.get ⟨j, hj⟩)) :
    (∀ m, (import_incoming_webhooks srv true postOk now false hooks).results[m]?
        = (hooks[m]?).map (fun h => webhookItemResult srv false (postOk m) h)) ∧
    (∃ ri rj,
      (import_incoming_webhooks srv true postOk now false hooks).results[i]? = some ri ∧
      (import_incoming_webhooks srv true postOk now false hooks).results[j]? = some rj ∧
      ri.renamed = rj.renamed) ∧
    (webhookDup [[("display_name", JVal.str "X")],
        [("display_name", JVal.str "X (imported)")]] false
        [("display_name", JVal.str "X")] = true ∧
      dget (webhookPayload incomingStrip
          [[("display_name", JVal.str "X")], [("display_name", JVal.str "X (imported)")]]
          false now [("display_name", JVal.str "X")]) "display_name"
        = some (JVal.str "X (imported)") ∧
      ([[("display_name", JVal.str "X")],
        [("display_name", JVal.str "X (imported)")]] : List Dict).any
          (fun e => decide (dget e "display_name" = some (JVal.str "X (imported)")))
        = true) := by
  have hnil : hooks ≠ [] := by
    intro h
    subst h
    simp at hi
  have hres : ∀ m, (import_incoming_webhooks srv true postOk now false hooks).results[m]?
      = (hooks[m]?).map (fun h => webhookItemResult srv false (postOk m) h) := by
    intro m
    rw [import_incoming_live_results srv postOk now hooks hnil,
      webhookLoop_results_getElem?]
    simp
  have hdup : webhookDup [[("display_name", JVal.str "X")],
      [("display_name", JVal.str "X (imported)")]] false
      [("display_name", JVal.str "X")] = true := by decide
  refine ⟨hres, ?_, hdup, ?_, by decide⟩
  · refine ⟨webhookItemResult srv false (postOk i) (hooks.get ⟨i, hi⟩),
      webhookItemResult srv false (postOk j) (hooks.get ⟨j, hj⟩), ?_, ?_, ?_⟩
    · rw [hres i, List.getElem?_eq_getElem hi]
      rfl
    · rw [hres j, List.getElem?_eq_getElem hj]
      rfl
    · simp only [webhookItemResult, webhookDup, hname]
  · rw [webhookPayload_display_name incomingStrip
      [[("display_name", JVal.str "X")], [("display_name", JVal.str "X (imported)")]]
      false now [("display_name", JVal.str "X")] rfl, hdup]
    decide

/-- C10, witness: the per-item results of a run with two identically
named snapshot items are all computed against the pre-fetched (empty)
index. -/
theorem c10_collision_index_fixed_witness :
    (import_incoming_webhooks [] true (fun _ => true) "t" false
        [[("display_name", JVal.str "A")], [("display_name", JVal.str "A")]]).results[0]?
      = (([[("display_name", JVal.str "A")], [("display_name", JVal.str "A")]]
          : List Dict)[0]?).map (fun h => webhookItemResult [] false true h) :=
  (c10_collision_index_fixed [] [[("display_name", JVal.str "A")],
      [("display_name", JVal.str "A")]] (fun _ => true) "t" 0 1
    (by decide) (by decide) rfl).1 0
